import Mathlib

/-!
A shallow embedding, in Lean 4, of the Amsterdam/goauth2 OAuth 2.0
authorization service (Go), covering:

* `googleidp.go` — the Google OpenID Connect IdP adapter
  (`AuthnRedirect`, `AuthnCallback`), together with models of the parts of
  the Go standard library it relies on: `net/url` query escaping and
  parsing (`url.Values`, `url.Values.Encode`, `url.ParseQuery`,
  `url.QueryEscape`/`QueryUnescape`), `encoding/base64`'s
  `RawURLEncoding.DecodeString`, `encoding/json.Unmarshal` into the two
  struct shapes the adapter uses, and `strings.Split`.
* `server/server.go` — the `Server` struct, the functional options
  (`BaseURL`, `Storage`, `Clients`, `AuthzProvider`, `AccessTokenConfig`,
  `IdP`), `New`, `Start`, `Close`, and the `handler()` route table.
* `server/state.go` — `authorizationState` and the gob-based
  `stateStorage.persist` / `stateStorage.restore` pair.

Go strings are modelled as lists of characters (each character standing
for one byte; all inputs of interest are byte strings, i.e. every
character's code point is < 256).  Fallible Go functions return `Except`
or `Option`; the outcome of exterior I/O (the token-endpoint POST, the
TCP bind in `Start`) is passed in as an explicit argument.
-/

/-- A Go string, as a list of characters (one `Char` per byte). -/
abbrev Str := List Char

/-- All characters of a `Str` are single bytes (code point < 256). -/
def ByteStr (s : Str) : Prop := ∀ c ∈ s, c.toNat < 256

instance : DecidablePred ByteStr := fun s =>
  inferInstanceAs (Decidable (∀ c ∈ s, c.toNat < 256))

/-! ## net/url: query escaping

Model of Go's `url.QueryEscape` / `url.QueryUnescape`
(`net/url`, mode `encodeQueryComponent`): alphanumeric bytes and
`-`, `_`, `.`, `~` pass through; a space becomes `+`; every other byte
becomes `%XX` with upper-case hex digits.  Unescaping maps `+` back to a
space, `%XX` (hex digits of either case) back to the byte, and fails on a
`%` that is not followed by two hex digits. -/

/-- Go `net/url.shouldEscape(c, encodeQueryComponent) == false`:
the bytes that are NOT escaped in a query component. -/
def isQueryUnreserved (c : Char) : Bool :=
  c.isAlpha || c.isDigit || c = '-' || c = '_' || c = '.' || c = '~'

/-- Upper-case hex digit for a nibble, as used by Go's `url.escape`. -/
def hexUpper (n : Nat) : Char :=
  "0123456789ABCDEF".toList.getD n '0'

/-- Value of a hex digit, either case (Go's `unhex`/`ishex`). -/
def hexDigitVal (c : Char) : Option Nat :=
  if '0' ≤ c ∧ c ≤ '9' then some (c.toNat - '0'.toNat)
  else if 'a' ≤ c ∧ c ≤ 'f' then some (c.toNat - 'a'.toNat + 10)
  else if 'A' ≤ c ∧ c ≤ 'F' then some (c.toNat - 'A'.toNat + 10)
  else none

/-- Escape a single byte for a query component (Go `url.escape`,
`encodeQueryComponent` mode). -/
def escapeQueryChar (c : Char) : Str :=
  if isQueryUnreserved c then [c]
  else if c = ' ' then ['+']
  else ['%', hexUpper (c.toNat / 16), hexUpper (c.toNat % 16)]

/-- Go `url.QueryEscape`. -/
def escapeQuery (s : Str) : Str :=
  s.flatMap escapeQueryChar

/-- Go `url.QueryUnescape` (query-component mode): `+` is a space, `%XX`
is decoded, a malformed `%` sequence is an `EscapeError`. -/
def unescapeQuery : Str → Option Str
  | [] => some []
  | '%' :: a :: b :: rest => do
      let ha ← hexDigitVal a
      let hb ← hexDigitVal b
      let r ← unescapeQuery rest
      pure (Char.ofNat (16 * ha + hb) :: r)
  | ['%', _] => none
  | ['%'] => none
  | '+' :: rest => (unescapeQuery rest).map (' ' :: ·)
  | c :: rest => (unescapeQuery rest).map (c :: ·)

theorem hexDigitVal_hexUpper {n : Nat} (h : n < 16) :
    hexDigitVal (hexUpper n) = some n := by
  interval_cases n <;> rfl

theorem unescapeQuery_cons {c : Char} (h1 : c ≠ '%') (h2 : c ≠ '+') (rest : Str) :
    unescapeQuery (c :: rest) = (unescapeQuery rest).map (c :: ·) := by
  rw [unescapeQuery.eq_def]
  split
  · simp_all
  · simp_all
  · simp_all
  · simp_all
  · simp_all
  · rename_i heq
    injection heq with hA hB
    subst hA; subst hB
    rfl

theorem unescapeQuery_plus (rest : Str) :
    unescapeQuery ('+' :: rest) = (unescapeQuery rest).map (' ' :: ·) := by
  rw [unescapeQuery.eq_def]
  split
  · simp_all
  · simp_all
  · simp_all
  · simp_all
  · rename_i heq
    injection heq with hA hB
    subst hB
    rfl
  · rename_i hne heq
    injection heq with hA hB
    exact absurd hA.symm hne

theorem unescapeQuery_pct (a b : Char) (rest : Str) :
    unescapeQuery ('%' :: a :: b :: rest) = (do
      let ha ← hexDigitVal a
      let hb ← hexDigitVal b
      let r ← unescapeQuery rest
      pure (Char.ofNat (16 * ha + hb) :: r)) := by
  rw [unescapeQuery.eq_def]
  split
  · simp_all
  · rename_i heq
    injection heq with hA hB
    injection hB with hB1 hB2
    injection hB2 with hB3 hB4
    subst hB1; subst hB3; subst hB4
    rfl
  · simp_all
  · simp_all
  · simp_all
  · rename_i hno hB2 hC2 hD2 heq
    injection heq with hA hB
    exact absurd hB.symm (hno a b rest hA.symm)

theorem unescapeQuery_escapeQueryChar (c : Char) (hc : c.toNat < 256) (t : Str) :
    unescapeQuery (escapeQueryChar c ++ t) = (unescapeQuery t).map (c :: ·) := by
  unfold escapeQueryChar
  by_cases hu : isQueryUnreserved c
  · have h1 : c ≠ '%' := by
      intro h; subst h; simp [isQueryUnreserved] at hu
    have h2 : c ≠ '+' := by
      intro h; subst h; simp [isQueryUnreserved] at hu
    simp only [hu, if_true, List.cons_append, List.nil_append]
    exact unescapeQuery_cons h1 h2 t
  · by_cases hsp : c = ' '
    · subst hsp
      simp only [hu, Bool.false_eq_true, if_false, if_true, List.cons_append,
        List.nil_append]
      exact unescapeQuery_plus t
    · simp only [hu, Bool.false_eq_true, if_false, hsp, List.cons_append,
        List.nil_append]
      rw [unescapeQuery_pct]
      have h1 : hexDigitVal (hexUpper (c.toNat / 16)) = some (c.toNat / 16) :=
        hexDigitVal_hexUpper (by omega)
      have h2 : hexDigitVal (hexUpper (c.toNat % 16)) = some (c.toNat % 16) :=
        hexDigitVal_hexUpper (Nat.mod_lt _ (by omega))
      rw [h1, h2]
      have h3 : 16 * (c.toNat / 16) + c.toNat % 16 = c.toNat := by omega
      cases ht : unescapeQuery t with
      | none => rfl
      | some v =>
        show some (Char.ofNat (16 * (c.toNat / 16) + c.toNat % 16) :: v) =
          some (c :: v)
        rw [h3, Char.ofNat_toNat]

/-- Round trip: unescaping an escaped byte string gives it back
(Go: `QueryUnescape(QueryEscape(s)) == s, nil`). -/
theorem unescapeQuery_escapeQuery (s : Str) (hs : ByteStr s) :
    unescapeQuery (escapeQuery s) = some s := by
  induction s with
  | nil => rfl
  | cons c t ih =>
    have hc : c.toNat < 256 := hs c (List.mem_cons_self ..)
    have ht : ByteStr t := fun d hd => hs d (List.mem_cons_of_mem _ hd)
    show unescapeQuery (escapeQueryChar c ++ escapeQuery t) = _
    rw [unescapeQuery_escapeQueryChar c hc, ih ht]
    rfl

/-! ## net/url: Values, Encode, ParseQuery -/

/-- Go `url.Values`: a multimap from keys to lists of values.  Go's `map`
iteration order is indeterminate; we keep first-insertion order, which is
invisible to the operations the adapter uses (`Get`, indexing, and
`Encode`, which sorts keys). -/
abbrev Values := List (Str × List Str)

/-- Indexing `v[key]` into the map: the value list, if the key is present. -/
def valuesLookup : Values → Str → Option (List Str)
  | [], _ => none
  | (k', vs) :: rest, k => if k' = k then some vs else valuesLookup rest k

/-- Go `url.Values.Get`: first value for the key, `""` when the key is
absent or its list empty. -/
def valuesGet (v : Values) (k : Str) : Str :=
  match valuesLookup v k with
  | none => []
  | some vs => vs.headD []

/-- Go `url.Values.Set`: make the key map to the one-element list. -/
def valuesSet : Values → Str → Str → Values
  | [], k, val => [(k, [val])]
  | (k', vs) :: rest, k, val =>
      if k' = k then (k, [val]) :: rest else (k', vs) :: valuesSet rest k val

/-- `m[key] = append(m[key], value)`, as done by `url.ParseQuery`. -/
def valuesAdd : Values → Str → Str → Values
  | [], k, val => [(k, [val])]
  | (k', vs) :: rest, k, val =>
      if k' = k then (k', vs ++ [val]) :: rest else (k', vs) :: valuesAdd rest k val

/-- Lexicographic order on byte strings, as `sort.Strings` orders keys. -/
def strLe : Str → Str → Bool
  | [], _ => true
  | _ :: _, [] => false
  | c :: cs, d :: ds => if c = d then strLe cs ds else decide (c < d)

def insertSortedByKey (p : Str × List Str) : Values → Values
  | [] => [p]
  | q :: rest =>
      if strLe p.1 q.1 then p :: q :: rest else q :: insertSortedByKey p rest

/-- The sorted-keys traversal of `url.Values.Encode`. -/
def sortByKey (v : Values) : Values := v.foldr insertSortedByKey []

/-- Joining `k=v` chunks with `&` (the buffer loop of `Values.Encode`;
every chunk contains `=` and so is never empty). -/
def joinAmp : List Str → Str
  | [] => []
  | [x] => x
  | x :: xs => x ++ '&' :: joinAmp xs

/-- Go `url.Values.Encode`: keys sorted, keys and values query-escaped,
pairs joined with `&`. -/
def valuesEncode (v : Values) : Str :=
  joinAmp ((sortByKey v).flatMap fun p =>
    p.2.map fun val => escapeQuery p.1 ++ '=' :: escapeQuery val)

/-- The separators `url.ParseQuery` splits on (`strings.IndexAny(key, "&;")`
in the Go release this repository was built against). -/
def isQuerySep (c : Char) : Bool := c = '&' || c = ';'

/-- Split on query separators, keeping empty segments. -/
def splitSeps : Str → List Str
  | [] => [[]]
  | c :: rest =>
      if isQuerySep c then [] :: splitSeps rest
      else
        match splitSeps rest with
        | seg :: segs => (c :: seg) :: segs
        | [] => [[c]]

/-- The non-empty `key=value` segments of a query (`url.ParseQuery` skips
empty keys with `continue`). -/
def querySegments (s : Str) : List Str := (splitSeps s).filter (· ≠ [])

/-- Split a segment at its first `=` (Go: `strings.Index(key, "=")`); with
no `=` the value is `""`. -/
def splitFirstEq : Str → Str × Str
  | [] => ([], [])
  | c :: rest =>
      if c = '=' then ([], rest)
      else
        let (k, v) := splitFirstEq rest
        (c :: k, v)

/-- One iteration of `url.ParseQuery`'s loop: unescape key and value and
append; an escape error is recorded (clearing the ok flag) and the pair is
skipped. -/
def parseStep (acc : Values × Bool) (seg : Str) : Values × Bool :=
  let (k, v) := splitFirstEq seg
  match unescapeQuery k, unescapeQuery v with
  | some k', some v' => (valuesAdd acc.1 k' v', acc.2)
  | _, _ => (acc.1, false)

/-- Go `url.ParseQuery`: the filled `url.Values` and whether no escape
error occurred. -/
def parseQueryRaw (s : Str) : Values × Bool :=
  (querySegments s).foldl parseStep ([], true)

/-- `url.ParseQuery` at a call site that checks the returned error and
discards the map on error (googleidp.go line 95). -/
def parseQuery (s : Str) : Option Values :=
  match parseQueryRaw s with
  | (m, true) => some m
  | (_, false) => none

/-- `r.URL.Query()` (`net/http`→`net/url`): parses the raw query and
DISCARDS the parse error, returning the partially-filled `Values`. -/
def queryLenient (s : Str) : Values := (parseQueryRaw s).1

/-! ### Parse/encode round-trip lemmas -/

/-- No query separator occurs in the string. -/
def NoSep (s : Str) : Prop := ∀ c ∈ s, isQuerySep c = false

theorem splitSeps_of_noSep {a : Str} (h : NoSep a) : splitSeps a = [a] := by
  induction a with
  | nil => rfl
  | cons c rest ih =>
    have hc : isQuerySep c = false := h c (List.mem_cons_self ..)
    have hrest : NoSep rest := fun d hd => h d (List.mem_cons_of_mem _ hd)
    simp [splitSeps, hc, ih hrest]

theorem splitSeps_append_amp {a : Str} (b : Str) (h : NoSep a) :
    splitSeps (a ++ '&' :: b) = a :: splitSeps b := by
  induction a with
  | nil =>
    simp [splitSeps, isQuerySep]
  | cons c rest ih =>
    have hc : isQuerySep c = false := h c (List.mem_cons_self ..)
    have hrest : NoSep rest := fun d hd => h d (List.mem_cons_of_mem _ hd)
    simp [splitSeps, hc, ih hrest]

theorem querySegments_joinAmp (chunks : List Str)
    (h : ∀ x ∈ chunks, x ≠ [] ∧ NoSep x) :
    querySegments (joinAmp chunks) = chunks := by
  induction chunks with
  | nil => rfl
  | cons x xs ih =>
    obtain ⟨hx, hxsep⟩ := h x (List.mem_cons_self ..)
    have hxs : ∀ y ∈ xs, y ≠ [] ∧ NoSep y := fun y hy => h y (List.mem_cons_of_mem _ hy)
    cases xs with
    | nil =>
      show querySegments x = [x]
      unfold querySegments
      rw [splitSeps_of_noSep hxsep]
      simp [hx]
    | cons y ys =>
      show querySegments (x ++ '&' :: joinAmp (y :: ys)) = x :: y :: ys
      unfold querySegments
      rw [splitSeps_append_amp _ hxsep]
      rw [List.filter_cons_of_pos (by simpa using hx)]
      exact congrArg _ (ih hxs)

theorem splitFirstEq_append {k : Str} (v : Str) (h : '=' ∉ k) :
    splitFirstEq (k ++ '=' :: v) = (k, v) := by
  induction k with
  | nil => simp [splitFirstEq]
  | cons c rest ih =>
    have hc : c ≠ '=' := fun hh => h (hh ▸ List.mem_cons_self ..)
    have hrest : '=' ∉ rest := fun hh => h (List.mem_cons_of_mem _ hh)
    simp [splitFirstEq, hc, ih hrest]

theorem hexUpper_good (n : Nat) :
    isQuerySep (hexUpper n) = false ∧ hexUpper n ≠ '=' ∧ (hexUpper n).toNat < 256 := by
  by_cases h : n < 16
  · interval_cases n <;> exact ⟨rfl, by decide, by decide⟩
  · have hlen : ("0123456789ABCDEF".toList).length = 16 := rfl
    have : hexUpper n = '0' := by
      unfold hexUpper
      exact List.getD_eq_default _ _ (by rw [hlen]; omega)
    rw [this]
    exact ⟨rfl, by decide, by decide⟩

theorem mem_escapeQueryChar_good {c c' : Char} (hc : c.toNat < 256)
    (h : c' ∈ escapeQueryChar c) :
    isQuerySep c' = false ∧ c' ≠ '=' ∧ c'.toNat < 256 := by
  unfold escapeQueryChar at h
  by_cases hu : isQueryUnreserved c
  · rw [if_pos hu] at h
    rcases List.mem_singleton.mp h with rfl
    refine ⟨?_, ?_, hc⟩
    · by_contra hsep
      have : c' = '&' ∨ c' = ';' := by
        simpa [isQuerySep, Bool.or_eq_true, decide_eq_true_eq] using
          Bool.not_eq_false _ |>.mp hsep
      rcases this with rfl | rfl <;> simp [isQueryUnreserved] at hu
    · rintro rfl
      simp [isQueryUnreserved] at hu
  · rw [if_neg hu] at h
    by_cases hsp : c = ' '
    · rw [if_pos hsp] at h
      rcases List.mem_singleton.mp h with rfl
      exact ⟨rfl, by decide, by decide⟩
    · rw [if_neg hsp] at h
      rcases List.mem_cons.mp h with rfl | h
      · exact ⟨rfl, by decide, by decide⟩
      rcases List.mem_cons.mp h with rfl | h
      · exact hexUpper_good _
      rcases List.mem_cons.mp h with rfl | h
      · exact hexUpper_good _
      · cases h

theorem escapeQuery_good {s : Str} (hs : ByteStr s) :
    ∀ c' ∈ escapeQuery s, isQuerySep c' = false ∧ c' ≠ '=' ∧ c'.toNat < 256 := by
  intro c' hc'
  obtain ⟨c, hc, hmem⟩ := List.mem_flatMap.mp hc'
  exact mem_escapeQueryChar_good (hs c hc) hmem

theorem escapeQuery_noSep {s : Str} (hs : ByteStr s) : NoSep (escapeQuery s) :=
  fun c hc => (escapeQuery_good hs c hc).1

theorem escapeQuery_noEq {s : Str} (hs : ByteStr s) : '=' ∉ escapeQuery s :=
  fun h => (escapeQuery_good hs _ h).2.1 rfl

theorem escapeQuery_byteStr {s : Str} (hs : ByteStr s) : ByteStr (escapeQuery s) :=
  fun c hc => (escapeQuery_good hs c hc).2.2

/-- A `key=value` chunk as laid out by `Values.Encode`. -/
def encChunk (p : Str × Str) : Str := escapeQuery p.1 ++ '=' :: escapeQuery p.2

theorem encChunk_good {p : Str × Str} (h1 : ByteStr p.1) (h2 : ByteStr p.2) :
    encChunk p ≠ [] ∧ NoSep (encChunk p) := by
  constructor
  · unfold encChunk
    intro h
    exact absurd (List.append_eq_nil.mp h).2 (by simp)
  · intro c hc
    unfold encChunk at hc
    rcases List.mem_append.mp hc with h | h
    · exact escapeQuery_noSep h1 c h
    · rcases List.mem_cons.mp h with rfl | h
      · rfl
      · exact escapeQuery_noSep h2 c h

theorem parseStep_encChunk {p : Str × Str} (m : Values) (ok : Bool)
    (h1 : ByteStr p.1) (h2 : ByteStr p.2) :
    parseStep (m, ok) (encChunk p) = (valuesAdd m p.1 p.2, ok) := by
  unfold parseStep encChunk
  rw [splitFirstEq_append _ (escapeQuery_noEq h1)]
  simp only [unescapeQuery_escapeQuery _ h1, unescapeQuery_escapeQuery _ h2]

theorem foldl_parseStep_encChunks (kvs : List (Str × Str)) (m : Values) (ok : Bool)
    (h : ∀ p ∈ kvs, ByteStr p.1 ∧ ByteStr p.2) :
    (kvs.map encChunk).foldl parseStep (m, ok) =
      (kvs.foldl (fun m p => valuesAdd m p.1 p.2) m, ok) := by
  induction kvs generalizing m with
  | nil => rfl
  | cons p rest ih =>
    obtain ⟨h1, h2⟩ := h p (List.mem_cons_self ..)
    have hrest := fun q hq => h q (List.mem_cons_of_mem _ hq)
    simp only [List.map_cons, List.foldl_cons, parseStep_encChunk m ok h1 h2]
    exact ih _ hrest

/-- Parsing an encoded pair list recovers exactly the pairs, with no
escape error. -/
theorem parseQueryRaw_encChunks (kvs : List (Str × Str))
    (h : ∀ p ∈ kvs, ByteStr p.1 ∧ ByteStr p.2) :
    parseQueryRaw (joinAmp (kvs.map encChunk)) =
      (kvs.foldl (fun m p => valuesAdd m p.1 p.2) [], true) := by
  unfold parseQueryRaw
  rw [querySegments_joinAmp]
  · exact foldl_parseStep_encChunks kvs [] true h
  · intro x hx
    obtain ⟨p, hp, rfl⟩ := List.mem_map.mp hx
    exact encChunk_good (h p hp).1 (h p hp).2

/-! ## encoding/base64: RawURLEncoding.DecodeString

Go's URL-safe base64 alphabet without padding.  The decoder skips `\r`
and `\n`, fails on any other byte outside the alphabet, fails on a
leftover group of one character, and (in the default, non-strict mode)
ignores unused trailing bits. -/

def b64URLCharVal (c : Char) : Option Nat :=
  if 'A' ≤ c ∧ c ≤ 'Z' then some (c.toNat - 'A'.toNat)
  else if 'a' ≤ c ∧ c ≤ 'z' then some (c.toNat - 'a'.toNat + 26)
  else if '0' ≤ c ∧ c ≤ '9' then some (c.toNat - '0'.toNat + 52)
  else if c = '-' then some 62
  else if c = '_' then some 63
  else none

def b64Groups : Str → Option (List Nat)
  | [] => some []
  | [_] => none
  | [a, b] => do
      let va ← b64URLCharVal a
      let vb ← b64URLCharVal b
      pure [va * 4 + vb / 16]
  | [a, b, c] => do
      let va ← b64URLCharVal a
      let vb ← b64URLCharVal b
      let vc ← b64URLCharVal c
      pure [va * 4 + vb / 16, (vb % 16) * 16 + vc / 4]
  | a :: b :: c :: d :: rest => do
      let va ← b64URLCharVal a
      let vb ← b64URLCharVal b
      let vc ← b64URLCharVal c
      let vd ← b64URLCharVal d
      let tail ← b64Groups rest
      pure ((va * 4 + vb / 16) :: ((vb % 16) * 16 + vc / 4) :: ((vc % 4) * 64 + vd) :: tail)

/-- Go `base64.RawURLEncoding.DecodeString`. -/
def base64RawURLDecode (s : Str) : Option (List Nat) :=
  b64Groups (s.filter fun c => !(c == '\r' || c == '\n'))

/-- A decoded byte slice viewed as a string (`string(bytes)`); all inputs
of interest are ASCII. -/
def bytesToStr (bs : List Nat) : Str := bs.map Char.ofNat

/-! ## strings.Split -/

/-- Go `strings.Split(s, sep)` for a one-byte separator: splits on every
occurrence, keeping empty segments (`strings.Split("", sep) == [""]`). -/
def splitChar (sep : Char) : Str → List Str
  | [] => [[]]
  | c :: rest =>
      if c = sep then [] :: splitChar sep rest
      else
        match splitChar sep rest with
        | seg :: segs => (c :: seg) :: segs
        | [] => [[c]]

/-! ## encoding/json: Unmarshal into the adapter's two struct shapes

A model of `encoding/json` sufficient for `googleIDPResponseData` and
`googleIDToken`: JSON values are parsed in full (objects, arrays,
strings with the single-character escapes, integers, literals), then
decoded field-by-field.  Model restrictions (documented, not exercised by
this development): numbers with a fractional part or exponent and `\u`
string escapes are rejected by the model parser where Go would accept
them. -/

inductive JSONVal where
  | jnull
  | jbool (b : Bool)
  | jnum (n : Int)
  | jstr (s : Str)
  | jarr (xs : List JSONVal)
  | jobj (fields : List (Str × JSONVal))

def isJSONWS (c : Char) : Bool := c = ' ' || c = '\t' || c = '\n' || c = '\r'

def skipWS : Str → Str
  | [] => []
  | c :: rest => if isJSONWS c then skipWS rest else c :: rest

def jsonEscChar (e : Char) : Option Char :=
  if e = '"' then some '"'
  else if e = '\x5c' then some '\x5c'
  else if e = '/' then some '/'
  else if e = 'n' then some '\n'
  else if e = 't' then some '\t'
  else if e = 'r' then some '\r'
  else if e = 'b' then some (Char.ofNat 8)
  else if e = 'f' then some (Char.ofNat 12)
  else none

/-- Parse the remainder of a JSON string literal (after the opening
quote), returning content and rest. -/
def parseJSONStr : Str → Option (Str × Str)
  | [] => none
  | c :: rest =>
    if c = '"' then some ([], rest)
    else if c = '\x5c' then
      match rest with
      | e :: rest2 =>
        match jsonEscChar e with
        | some ch =>
          match parseJSONStr rest2 with
          | some (str, r) => some (ch :: str, r)
          | none => none
        | none => none
      | [] => none
    else
      match parseJSONStr rest with
      | some (str, r) => some (c :: str, r)
      | none => none

def digitsLoop : Str → Nat → Nat × Str
  | [], acc => (acc, [])
  | c :: rest, acc =>
      if c.isDigit then digitsLoop rest (acc * 10 + (c.toNat - 48)) else (acc, c :: rest)

def parseDigits : Str → Option (Nat × Str)
  | [] => none
  | c :: rest => if c.isDigit then some (digitsLoop rest (c.toNat - 48)) else none

mutual

def parseJSONVal (fuel : Nat) (s : Str) : Option (JSONVal × Str) :=
  match fuel with
  | 0 => none
  | f + 1 =>
    match skipWS s with
    | [] => none
    | c :: rest =>
      if c = '\x7b' then
        match skipWS rest with
        | '\x7d' :: rest2 => some (.jobj [], rest2)
        | s2 =>
          match parseJSONMembers f s2 with
          | some (fields, rest2) => some (.jobj fields, rest2)
          | none => none
      else if c = '[' then
        match skipWS rest with
        | ']' :: rest2 => some (.jarr [], rest2)
        | s2 =>
          match parseJSONElems f s2 with
          | some (xs, rest2) => some (.jarr xs, rest2)
          | none => none
      else if c = '"' then
        match parseJSONStr rest with
        | some (str, rest2) => some (.jstr str, rest2)
        | none => none
      else if c = 't' then
        match rest with
        | 'r' :: 'u' :: 'e' :: rest2 => some (.jbool true, rest2)
        | _ => none
      else if c = 'f' then
        match rest with
        | 'a' :: 'l' :: 's' :: 'e' :: rest2 => some (.jbool false, rest2)
        | _ => none
      else if c = 'n' then
        match rest with
        | 'u' :: 'l' :: 'l' :: rest2 => some (.jnull, rest2)
        | _ => none
      else if c = '-' then
        match parseDigits rest with
        | some (n, rest2) => some (.jnum (-(n : Int)), rest2)
        | none => none
      else if c.isDigit then
        match parseDigits (c :: rest) with
        | some (n, rest2) => some (.jnum (n : Int), rest2)
        | none => none
      else none

def parseJSONMembers (fuel : Nat) (s : Str) : Option (List (Str × JSONVal) × Str) :=
  match fuel with
  | 0 => none
  | f + 1 =>
    match skipWS s with
    | '"' :: rest =>
      match parseJSONStr rest with
      | some (key, rest2) =>
        match skipWS rest2 with
        | ':' :: rest3 =>
          match parseJSONVal f rest3 with
          | some (v, rest4) =>
            match skipWS rest4 with
            | ',' :: rest5 =>
              match parseJSONMembers f rest5 with
              | some (fields, rest6) => some ((key, v) :: fields, rest6)
              | none => none
            | '\x7d' :: rest5 => some ([(key, v)], rest5)
            | _ => none
          | none => none
        | _ => none
      | none => none
    | _ => none

def parseJSONElems (fuel : Nat) (s : Str) : Option (List JSONVal × Str) :=
  match fuel with
  | 0 => none
  | f + 1 =>
    match parseJSONVal f s with
    | some (v, rest) =>
      match skipWS rest with
      | ',' :: rest2 =>
        match parseJSONElems f rest2 with
        | some (xs, rest3) => some (v :: xs, rest3)
        | none => none
      | ']' :: rest2 => some ([v], rest2)
      | _ => none
    | none => none

end

/-- Parse a complete JSON document (`json.Unmarshal` rejects trailing
non-whitespace). -/
def jsonParse (s : Str) : Option JSONVal :=
  match parseJSONVal (2 * s.length + 2) s with
  | some (v, rest) => if skipWS rest = [] then some v else none
  | none => none

/-- ASCII lower-casing, for `encoding/json`'s case-insensitive field-name
match (`Unmarshal` matches the tag exactly or case-insensitively; the
adapter's tags are pairwise distinct even case-insensitively, so one
case-insensitive comparison is equivalent). -/
def lowerChar (c : Char) : Char :=
  if 'A' ≤ c ∧ c ≤ 'Z' then Char.ofNat (c.toNat + 32) else c

def jsonKeyMatch (k t : Str) : Bool :=
  decide (k.map lowerChar = t.map lowerChar)

/-- Go struct `googleIDPResponseData` (googleidp.go lines 25–30); field
defaults are Go zero values, as `json.Unmarshal` decodes into a fresh
variable. -/
structure GoogleIDPResponseData where
  AccessToken : Str := []
  TokenType : Str := []
  ExpiresIn : Int := 0
  IDToken : Str := []
deriving DecidableEq, Inhabited, Repr

/-- Decode one JSON object member into `googleIDPResponseData`: matching
tag with the right type assigns, `null` leaves the field, a type mismatch
is an `UnmarshalTypeError`, unknown keys are ignored. -/
def setIDPRespField (d : GoogleIDPResponseData) (k : Str) (v : JSONVal) :
    Option GoogleIDPResponseData :=
  if jsonKeyMatch k "access_token".toList then
    match v with
    | .jstr s => some { d with AccessToken := s }
    | .jnull => some d
    | _ => none
  else if jsonKeyMatch k "token_type".toList then
    match v with
    | .jstr s => some { d with TokenType := s }
    | .jnull => some d
    | _ => none
  else if jsonKeyMatch k "expires_in".toList then
    match v with
    | .jnum n => some { d with ExpiresIn := n }
    | .jnull => some d
    | _ => none
  else if jsonKeyMatch k "id_token".toList then
    match v with
    | .jstr s => some { d with IDToken := s }
    | .jnull => some d
    | _ => none
  else some d

/-- `json.Unmarshal(body, &authData)` for `googleIDPResponseData`:
syntax errors, a non-object document, and type-mismatched fields all
surface as a non-nil error (`none`). -/
def unmarshalIDPResponse (body : Str) : Option GoogleIDPResponseData :=
  match jsonParse body with
  | some (.jobj fields) => fields.foldlM (fun d p => setIDPRespField d p.1 p.2) {}
  | _ => none

/-- Go struct `googleIDToken` (googleidp.go lines 32–46). -/
structure GoogleIDToken where
  Issuer : Str := []
  AccessTokenHash : Str := []
  EmailIsVerified : Bool := false
  Subject : Str := []
  AuthorizedPresenter : Str := []
  Email : Str := []
  ProfileURL : Str := []
  PictureURL : Str := []
  Name : Str := []
  Audience : Str := []
  IssuedAt : Int := 0
  ExpiryTime : Int := 0
  Nonce : Str := []
deriving DecidableEq, Inhabited, Repr

def setIDTokenField (d : GoogleIDToken) (k : Str) (v : JSONVal) :
    Option GoogleIDToken :=
  if jsonKeyMatch k "iss".toList then
    match v with
    | .jstr s => some { d with Issuer := s }
    | .jnull => some d
    | _ => none
  else if jsonKeyMatch k "at_hash".toList then
    match v with
    | .jstr s => some { d with AccessTokenHash := s }
    | .jnull => some d
    | _ => none
  else if jsonKeyMatch k "email_verified".toList then
    match v with
    | .jbool b => some { d with EmailIsVerified := b }
    | .jnull => some d
    | _ => none
  else if jsonKeyMatch k "sub".toList then
    match v with
    | .jstr s => some { d with Subject := s }
    | .jnull => some d
    | _ => none
  else if jsonKeyMatch k "azp".toList then
    match v with
    | .jstr s => some { d with AuthorizedPresenter := s }
    | .jnull => some d
    | _ => none
  else if jsonKeyMatch k "email".toList then
    match v with
    | .jstr s => some { d with Email := s }
    | .jnull => some d
    | _ => none
  else if jsonKeyMatch k "profile".toList then
    match v with
    | .jstr s => some { d with ProfileURL := s }
    | .jnull => some d
    | _ => none
  else if jsonKeyMatch k "picture".toList then
    match v with
    | .jstr s => some { d with PictureURL := s }
    | .jnull => some d
    | _ => none
  else if jsonKeyMatch k "name".toList then
    match v with
    | .jstr s => some { d with Name := s }
    | .jnull => some d
    | _ => none
  else if jsonKeyMatch k "aud".toList then
    match v with
    | .jstr s => some { d with Audience := s }
    | .jnull => some d
    | _ => none
  else if jsonKeyMatch k "iat".toList then
    match v with
    | .jnum n => some { d with IssuedAt := n }
    | .jnull => some d
    | _ => none
  else if jsonKeyMatch k "exp".toList then
    match v with
    | .jnum n => some { d with ExpiryTime := n }
    | .jnull => some d
    | _ => none
  else if jsonKeyMatch k "nonce".toList then
    match v with
    | .jstr s => some { d with Nonce := s }
    | .jnull => some d
    | _ => none
  else some d

/-- `json.Unmarshal(rawIDToken, &idToken)` for `googleIDToken`. -/
def unmarshalIDToken (body : Str) : Option GoogleIDToken :=
  match jsonParse body with
  | some (.jobj fields) => fields.foldlM (fun d p => setIDTokenField d p.1 p.2) {}
  | _ => none

/-! ## googleidp.go: the Google OIC IdP adapter -/

/-- `oauth2.User` as constructed by the adapter (googleidp.go line 141). -/
structure OAuth2User where
  UID : Str
  Data : List Str
deriving DecidableEq, Repr

/-- The token-endpoint HTTP response, as far as `AuthnCallback` inspects
it: status code and body bytes. -/
structure TokenResponse where
  StatusCode : Nat
  Body : Str
deriving DecidableEq, Repr

def googleAuthURLStr : Str :=
  "https://accounts.google.com/o/oauth2/v2/auth".toList

def googleTokenURLStr : Str :=
  "https://www.googleapis.com/oauth2/v4/token".toList

/-- The `state` value `AuthnRedirect` embeds (googleidp.go lines 68–71):
`url.Values{ref: authzRef, redirect_uri: callbackURL}.Encode()`. -/
def authnRedirectState (callbackURL authzRef : Str) : Str :=
  valuesEncode
    (valuesSet (valuesSet [] "ref".toList authzRef) "redirect_uri".toList callbackURL)

/-- The query of the redirect URL built by `AuthnRedirect`
(googleidp.go lines 77–83): `client_id`, `response_type=code`,
`scope=openid email`, `redirect_uri`, `state`, then `Encode()`d. -/
def authnRedirectQuery (clientID callbackURL authzRef : Str) : Str :=
  valuesEncode
    (valuesSet
      (valuesSet
        (valuesSet
          (valuesSet
            (valuesSet [] "client_id".toList clientID)
            "response_type".toList "code".toList)
          "scope".toList "openid email".toList)
        "redirect_uri".toList callbackURL)
      "state".toList (authnRedirectState callbackURL authzRef))

/-- `googleIDP.AuthnRedirect` (googleidp.go lines 67–85): the returned
redirect URL.  `url.Parse(googleAuthURL)` cannot fail on the constant, so
the error return is always nil; the URL's query is replaced by the
encoded values. -/
def authnRedirect (clientID callbackURL authzRef : Str) : Str :=
  googleAuthURLStr ++ '?' :: authnRedirectQuery clientID callbackURL authzRef

/-- The form values `AuthnCallback` POSTs to the token endpoint
(googleidp.go lines 104–109); the response to that POST is the
environment input `post` below. -/
def authnCallbackPostForm (clientID clientSecret authzCode redirectURI : Str) : Values :=
  valuesSet
    (valuesSet
      (valuesSet
        (valuesSet
          (valuesSet [] "code".toList authzCode)
          "client_id".toList clientID)
        "client_secret".toList clientSecret)
      "redirect_uri".toList redirectURI)
    "grant_type".toList "authorization_code".toList

/-- `googleIDP.AuthnCallback` (googleidp.go lines 88–143), over the
callback request's raw query string and the outcome of the
`client.PostForm(googleTokenURL, data)` call (a transport error or a
response).  Returns the `(opaque reference, user, error)` triple:
`.error e` models `("", nil, err)`, `.ok (ref, u?)` models
`(ref, u?, nil)`.  Note there is no verification of the `id_token`
signature anywhere: the adapter splits the token, base64-decodes the
payload segment and trusts its claims; Google's signing keys are not an
input at all. -/
def authnCallback (rawQuery : Str) (post : Except Str TokenResponse) :
    Except Str (Str × Option OAuth2User) :=
  let q := queryLenient rawQuery
  match valuesLookup q "state".toList with
  | none => .ok ([], none)
  | some stateVals =>
    let state0 := stateVals.headD []
    match parseQuery state0 with
    | none => .ok ([], none)
    | some stateData =>
      let ref := valuesGet stateData "ref".toList
      match valuesLookup q "code".toList with
      | none => .ok (ref, none)
      | some _ =>
        match post with
        | .error e => .error e
        | .ok resp =>
          if resp.StatusCode ≠ 200 then .ok (ref, none)
          else
            match unmarshalIDPResponse resp.Body with
            | none => .ok (ref, none)
            | some authData =>
              let parts := splitChar '.' authData.IDToken
              if parts.length ≠ 3 then .ok (ref, none)
              else
                match base64RawURLDecode (parts.getD 1 []) with
                | none => .ok (ref, none)
                | some rawIDToken =>
                  match unmarshalIDToken (bytesToStr rawIDToken) with
                  | none => .ok (ref, none)
                  | some idToken =>
                    .ok (ref, some ⟨idToken.Subject, ["CDE_PLUS".toList]⟩)

/-! ## server/server.go

The `Server` struct and its functional options.  Interface-typed fields
(`TransientStorage`, `Authz`, `ClientMap`, `Authn`) hold caller-supplied
implementations; a supplied implementation is modelled as an opaque
handle (a `Nat`), and the defaults `New` installs are distinguished
constructors.  `sync.Mutex`/`sync.Once` fields carry no data and are
omitted; the `once` guard of `Start` is irrelevant to the claims below. -/

/-- The access-token encoder configuration.  Modelled from the spec:
`newAccessTokenEncoder` itself (the handler/`accessTokenEncoder` code) is
not under src/; per spec §4.A it is constructed from exactly a symmetric
secret, a lifetime in seconds and an issuer string, which is all `New`
and the options pass it. -/
structure AccessTokenEncoder where
  secret : List Nat
  lifetime : Int
  issuer : Str
deriving DecidableEq, Repr

/-- A `TransientStorage` implementation: one supplied via the `Storage`
option, or the in-memory `transientMap` default. -/
inductive StoreVal where
  | given (handle : Nat)
  | defaultTransientMap
deriving DecidableEq, Repr

/-- An `Authz` implementation: supplied, or the `emptyScopeSet` default. -/
inductive AuthzVal where
  | given (handle : Nat)
  | emptyScopeSet
deriving DecidableEq, Repr

/-- An `Authn` (IdP) implementation: supplied, or the `anonymousIdP`
default. -/
inductive AuthnVal where
  | given (handle : Nat)
  | anonymousIdP
deriving DecidableEq, Repr

/-- `server.Server` (server.go lines 15–32).  `baseURL` is the URL as a
string (`url.URL{}` zero value ↦ `""`); `listener` is `none` until a
successful `net.Listen` inside `Start`; interface fields are `none` when
nil. -/
structure GoServer where
  baseURL : Str
  listener : Option Unit
  accessTokenEnc : Option AccessTokenEncoder
  store : Option StoreVal
  authz : Option AuthzVal
  authn : List (Str × AuthnVal)
  clientMap : Option Nat
  initialized : Bool
deriving DecidableEq, Repr

/-- `map[string]Authn` update `s.authn[id] = a`: replace or add. -/
def authnMapSet : List (Str × AuthnVal) → Str → AuthnVal → List (Str × AuthnVal)
  | [], id, a => [(id, a)]
  | (id', a') :: rest, id, a =>
      if id' = id then (id, a) :: rest else (id', a') :: authnMapSet rest id a

/-- The configuration options accepted by `New` (server.go lines
192–265), deep-embedded so that statements can quantify over them. -/
inductive ServerOption where
  | baseURL (u : Str)
  | storage (store : Nat)
  | clients (m : Nat)
  | authzProvider (p : Nat)
  | accessTokenConfig (secret : List Nat) (lifetime : Int) (issuer : Str)
  | idp (id : Str) (a : AuthnVal)
deriving DecidableEq, Repr

def ServerOption.isAccessTokenConfig : ServerOption → Bool
  | .accessTokenConfig .. => true
  | _ => false

/-- Apply one option to the server, as the Go closures do: each first
checks `s.initialized` and returns an error WITHOUT touching the server;
otherwise it sets its field and returns nil.  The pair is
`(error, server after the call)` — Go mutates through the pointer, so
the untouched server is returned alongside the error. -/
def applyOption (o : ServerOption) (s : GoServer) : Option Str × GoServer :=
  match o with
  | .baseURL u =>
      if s.initialized then (some "Given server already initialized".toList, s)
      else (none, { s with baseURL := u })
  | .storage store =>
      if s.initialized then (some "Given server already initialized".toList, s)
      else (none, { s with store := some (.given store) })
  | .clients m =>
      if s.initialized then (some "Given server already initialized".toList, s)
      else (none, { s with clientMap := some m })
  | .authzProvider p =>
      if s.initialized then (some "Given server already initialized".toList, s)
      else (none, { s with authz := some (.given p) })
  | .accessTokenConfig secret lifetime issuer =>
      if s.initialized then
        (some "Can only call SetAccessTokenConfig as an option to New(...)".toList, s)
      else (none, { s with accessTokenEnc := some ⟨secret, lifetime, issuer⟩ })
  | .idp id a =>
      if s.initialized then
        (some "Can only call RegisterIdP as an option to New(...)".toList, s)
      else (none, { s with authn := authnMapSet s.authn id a })

/-- The option loop of `New` (server.go lines 38–42): first error aborts. -/
def applyOptions : List ServerOption → GoServer → Except Str GoServer
  | [], s => .ok s
  | o :: rest, s =>
      match applyOption o s with
      | (some e, _) => .error e
      | (none, s') => applyOptions rest s'

/-- The state of `math/rand`'s default (top-level) `Source`.  Model of
the Go standard library as of this repository's toolchain era (pre Go
1.20): the default source is deterministically seeded — `Seed(1)` — so
every process starts it in the same state.  The concrete step function
below stands in for the generator's arithmetic; what the claims rely on
is only that `Read` is a pure function of the source state and that
`mathRandInitialState` is the fixed state every process starts with. -/
structure MathRandState where
  seed : Nat
deriving DecidableEq, Repr

/-- The fixed state of the default source at process start (seed 1). -/
def mathRandInitialState : MathRandState := ⟨1⟩

def mathRandStep (s : Nat) : Nat :=
  (s * 6364136223846793005 + 1442695040888963407) % (2 ^ 64)

/-- `rand.Read(p)` for `len(p) = n` on the default source: the bytes read
and the advanced source state. -/
def mathRandRead : Nat → MathRandState → List Nat × MathRandState
  | 0, st => ([], st)
  | n + 1, st =>
      let s' := mathRandStep st.seed
      let (bs, stf) := mathRandRead n ⟨s'⟩
      (s' % 256 :: bs, stf)

/-- The zero `Server` that `New` starts from:
`&Server{authn: make(map[string]Authn)}`. -/
def zeroServer : GoServer :=
  { baseURL := [], listener := none, accessTokenEnc := none, store := none,
    authz := none, authn := [], clientMap := none, initialized := false }

/-- `server.New` (server.go lines 35–67): apply the options (first error
aborts), then fill in defaults for whatever is still nil — an encoder
with a 16-byte `math/rand` secret, lifetime 36000 and issuer "goauth2";
an in-memory `transientMap`; the `emptyScopeSet`; the `anonymousIdP`
under id "anonymous" — and set `initialized`.  Threads the global
`math/rand` state. -/
def newServer (rand : MathRandState) (opts : List ServerOption) :
    Except Str (GoServer × MathRandState) :=
  match applyOptions opts zeroServer with
  | .error e => .error e
  | .ok s0 =>
    let (s1, rand1) :=
      if s0.accessTokenEnc = none then
        let (secret, r') := mathRandRead 16 rand
        ({ s0 with accessTokenEnc := some ⟨secret, 36000, "goauth2".toList⟩ }, r')
      else (s0, rand)
    let s2 := if s1.store = none then { s1 with store := some .defaultTransientMap } else s1
    let s3 := if s2.authz = none then { s2 with authz := some .emptyScopeSet } else s2
    let s4 := if s3.authn = [] then
        { s3 with authn := [("anonymous".toList, AuthnVal.anonymousIdP)] }
      else s3
    .ok ({ s4 with initialized := true }, rand1)

/-- A Go runtime panic, as distinct from an error return. -/
inductive GoPanic where
  | nilPointerDeref
deriving DecidableEq, Repr

/-- `Server.Close` (server.go lines 105–107): `return s.listener.Close()`.
Calling `Close` through a nil `net.Listener` interface value is a runtime
panic, not an error return; on a live listener the `Close` result is the
environment's (modelled nil). -/
def closeServer (s : GoServer) : Except GoPanic (Option Str) :=
  match s.listener with
  | none => .error .nilPointerDeref
  | some _ => .ok none

/-- `Server.Start` (server.go lines 71–102), up to the blocking
`http.Serve`: the outcome of `net.Listen` is the environment input
`bindOk`.  On bind failure the error goes to the channel and the server
is untouched; on success `s.listener` is assigned.  (The `once` guard and
the serve loop do not affect the fields.) -/
def startServer (s : GoServer) (bindOk : Bool) : GoServer × Option Str :=
  if bindOk then ({ s with listener := some () }, none)
  else (s, some "listen error".toList)

/-- One registered route of `Server.handler()` (server.go lines 110–129):
the mux pattern and, for IdP routes, the callback URL stored in the
`idpHandler`. -/
structure RouteEntry where
  pattern : Str
  callbackURL : Option Str
deriving DecidableEq, Repr

/-- `baseURL.Parse(relPath)` for the relative paths `handler()` uses
(RFC 3986 merge for a relative reference without `.`/`..` segments,
query or fragment, against a base whose path ends in `/`): everything
after the last `/` of the base is replaced by `relPath`. -/
def urlResolveRel (base rel : Str) : Str :=
  let upToSlash := (base.reverse.dropWhile (· ≠ '/')).reverse
  upToSlash ++ rel

/-- `Server.handler()` (server.go lines 110–129): for every registered
IdP id the mux gets `/authorize/<idpId>` (pattern template
`"authorize/%s"`), whose `idpHandler` carries
`u = baseURL.Parse("authorize/<idpId>")` — the URL the handler hands to
the IdP's `AuthnRedirect` as callback URL — plus the `/authorize` route. -/
def serverRoutes (s : GoServer) : List RouteEntry :=
  (s.authn.map fun p =>
    { pattern := '/' :: ("authorize/".toList ++ p.1),
      callbackURL := some (urlResolveRel s.baseURL ("authorize/".toList ++ p.1)) })
  ++ [{ pattern := "/authorize".toList, callbackURL := none }]

/-! ## server/state.go: authorizationState and the gob state store

`encoding/gob` is modelled at the level of its struct encoding
semantics: a struct value is transmitted as a sequence of tagged fields
— gob matches fields by NAME between encoder and decoder (the wire's
type descriptor carries the names; the per-value field-number deltas are
in bijection with them) — and a field whose value is the zero value of
its type (empty string, empty slice) is OMITTED from the transmission;
the decoder leaves omitted fields at the target's existing (zero)
value and ignores names unknown to the target type. -/

/-- A gob-encoded field value of one of the three types occurring in
`authorizationState`. -/
inductive GobVal where
  | vstr (s : Str)
  | vstrs (l : List Str)
  | vbytes (b : List Nat)
deriving DecidableEq, Repr

/-- The gob transmission of one struct value: the tagged non-zero
fields, in field order. -/
abbrev GobStream := List (Str × GobVal)

/-- `server.authorizationState` (state.go lines 9–16). -/
structure authorizationState where
  ClientId : Str
  RedirectURI : Str
  ResponseType : Str
  Scope : List Str
  State : Str
  IdPState : List Nat
deriving DecidableEq, Repr

/-- `gob.Encoder.Encode` of an `authorizationState`: each field in
declaration order, zero-valued fields omitted. -/
def gobEncodeAuthState (a : authorizationState) : GobStream :=
  (if a.ClientId = [] then [] else [("ClientId".toList, GobVal.vstr a.ClientId)])
  ++ (if a.RedirectURI = [] then [] else [("RedirectURI".toList, GobVal.vstr a.RedirectURI)])
  ++ (if a.ResponseType = [] then [] else [("ResponseType".toList, GobVal.vstr a.ResponseType)])
  ++ (if a.Scope = [] then [] else [("Scope".toList, GobVal.vstrs a.Scope)])
  ++ (if a.State = [] then [] else [("State".toList, GobVal.vstr a.State)])
  ++ (if a.IdPState = [] then [] else [("IdPState".toList, GobVal.vbytes a.IdPState)])

/-- Apply one received field to the target; a name/type mismatch is a
decode error, an unknown name is skipped. -/
def gobSetAuthField (a : authorizationState) (f : Str × GobVal) :
    Option authorizationState :=
  if f.1 = "ClientId".toList then
    match f.2 with
    | .vstr v => some { a with ClientId := v }
    | _ => none
  else if f.1 = "RedirectURI".toList then
    match f.2 with
    | .vstr v => some { a with RedirectURI := v }
    | _ => none
  else if f.1 = "ResponseType".toList then
    match f.2 with
    | .vstr v => some { a with ResponseType := v }
    | _ => none
  else if f.1 = "Scope".toList then
    match f.2 with
    | .vstrs v => some { a with Scope := v }
    | _ => none
  else if f.1 = "State".toList then
    match f.2 with
    | .vstr v => some { a with State := v }
    | _ => none
  else if f.1 = "IdPState".toList then
    match f.2 with
    | .vbytes v => some { a with IdPState := v }
    | _ => none
  else some a

/-- `gob.Decoder.Decode(&e)` into a fresh zero `authorizationState`:
received fields overwrite the zero value. -/
def gobDecodeAuthState (g : GobStream) : Option authorizationState :=
  g.foldlM gobSetAuthField ⟨[], [], [], [], [], []⟩

/-- The external KV engine (`StateKeeper`), holding exactly what was
persisted: newest entry first, with its TTL as passed to `Persist`. -/
abbrev KVEngine := List (Str × GobStream × Nat)

/-- `engine.Persist(key, value, ttl)` for an engine that stores exactly
what it is given. -/
def enginePersist (e : KVEngine) (key : Str) (v : GobStream) (ttl : Nat) : KVEngine :=
  (key, v, ttl) :: e

/-- `engine.Restore(key)` for the same engine: the value most recently
persisted under the key, or an error when the key is absent. -/
def engineRestore (e : KVEngine) (key : Str) : Option GobStream :=
  match e with
  | [] => none
  | (k, v, _) :: rest => if k = key then some v else engineRestore rest key

/-- `stateStorage.persist(key, data)` (state.go lines 40–47): gob-encode,
then hand to the engine with the store's `maxLifetime`.  (Gob encoding of
an `authorizationState` cannot fail, so the error return is the
engine's, which for this engine is nil.) -/
def statePersist (e : KVEngine) (maxLifetime : Nat) (key : Str)
    (a : authorizationState) : KVEngine :=
  enginePersist e key (gobEncodeAuthState a) maxLifetime

/-- `stateStorage.restore(key, &e)` (state.go lines 27–38): fetch from
the engine (error when missing), then gob-decode into the caller's fresh
zero value (error when the stream does not decode). -/
def stateRestore (e : KVEngine) (key : Str) : Except Str authorizationState :=
  match engineRestore e key with
  | none => .error "restore: no such key".toList
  | some g =>
    match gobDecodeAuthState g with
    | none => .error "restore: decode error".toList
    | some a => .ok a

/-! ## Server lemmas -/

theorem applyOption_listener (o : ServerOption) (s : GoServer) :
    (applyOption o s).2.listener = s.listener := by
  cases o <;> simp only [applyOption] <;> split <;> rfl

theorem applyOptions_listener (opts : List ServerOption) (s s' : GoServer)
    (h : applyOptions opts s = .ok s') : s'.listener = s.listener := by
  induction opts generalizing s with
  | nil =>
    unfold applyOptions at h
    cases h
    rfl
  | cons o rest ih =>
    unfold applyOptions at h
    cases ho : applyOption o s with
    | mk oe s2 =>
      rw [ho] at h
      cases oe with
      | some e => exact absurd h (by simp)
      | none =>
        have h2 := ih s2 h
        have h3 : s2.listener = s.listener := by
          have := applyOption_listener o s
          rw [ho] at this
          exact this
        rw [h2, h3]

theorem applyOption_enc_of_not_atc (o : ServerOption) (s : GoServer)
    (h : o.isAccessTokenConfig = false) :
    (applyOption o s).2.accessTokenEnc = s.accessTokenEnc := by
  cases o <;> first
    | (simp only [applyOption]; split <;> rfl)
    | exact absurd h (by simp [ServerOption.isAccessTokenConfig])

theorem applyOptions_enc (opts : List ServerOption) (s s' : GoServer)
    (hno : ∀ o ∈ opts, o.isAccessTokenConfig = false)
    (h : applyOptions opts s = .ok s') : s'.accessTokenEnc = s.accessTokenEnc := by
  induction opts generalizing s with
  | nil =>
    unfold applyOptions at h
    cases h
    rfl
  | cons o rest ih =>
    unfold applyOptions at h
    cases ho : applyOption o s with
    | mk oe s2 =>
      rw [ho] at h
      cases oe with
      | some e => exact absurd h (by simp)
      | none =>
        have h2 := ih s2 (fun q hq => hno q (List.mem_cons_of_mem _ hq)) h
        have h3 : s2.accessTokenEnc = s.accessTokenEnc := by
          have := applyOption_enc_of_not_atc o s (hno o (List.mem_cons_self ..))
          rw [ho] at this
          exact this
        rw [h2, h3]

theorem newServer_ok_shape (rand : MathRandState) (opts : List ServerOption)
    (s : GoServer) (st : MathRandState)
    (h : newServer rand opts = .ok (s, st)) :
    ∃ s0, applyOptions opts zeroServer = .ok s0 ∧
      s.initialized = true ∧ s.listener = s0.listener ∧
      (s0.accessTokenEnc = none →
        s.accessTokenEnc = some ⟨(mathRandRead 16 rand).1, 36000, "goauth2".toList⟩) := by
  unfold newServer at h
  cases hA : applyOptions opts zeroServer with
  | error e => rw [hA] at h; exact absurd h (by simp)
  | ok s0 =>
    rw [hA] at h
    refine ⟨s0, rfl, ?_⟩
    by_cases henc : s0.accessTokenEnc = none <;>
      simp only [henc, if_true, if_false, reduceIte] at h <;>
      split at h <;> split at h <;> split at h <;>
      (cases h; exact ⟨rfl, rfl, by intro hh; first | rfl | (exact absurd hh henc)⟩)

/-- Gob round trip on `authorizationState`: decoding an encoded value
into a fresh zero value restores every field (omitted fields are the
zero value, which is what the original held). -/
theorem gobDecode_gobEncode (a : authorizationState) :
    gobDecodeAuthState (gobEncodeAuthState a) = some a := by
  obtain ⟨c, r, rt, sc, st, ip⟩ := a
  unfold gobEncodeAuthState
  dsimp only
  split_ifs <;> (subst_vars; rfl)

/-- Extract the server from a `New` result (total helper for stating
concrete witnesses; `New` never fails on the inputs used). -/
def serverOf (r : Except Str (GoServer × MathRandState)) : GoServer :=
  match r with
  | .ok (s, _) => s
  | .error _ => zeroServer

def randOf (r : Except Str (GoServer × MathRandState)) : MathRandState :=
  match r with
  | .ok (_, st) => st
  | .error _ => mathRandInitialState

/-- C3: persisting an `authorizationState` under a key through the state
store and then restoring that key — with a KV engine that returns exactly
what was persisted — yields the original state on every structured field
(`restore(persist(s)) == s`). -/
theorem stateStorage_restore_persist (e : KVEngine) (maxLifetime : Nat)
    (key : Str) (a : authorizationState) :
    stateRestore (statePersist e maxLifetime key a) key = .ok a := by
  unfold statePersist stateRestore enginePersist engineRestore
  rw [if_pos rfl]
  simp [gobDecode_gobEncode]

/-- C2: for every server built by `New` and every configuration option,
applying the option after `New` has returned yields an error and leaves
every field of the server unchanged. -/
theorem applyOption_after_new (rand : MathRandState) (opts : List ServerOption)
    (s : GoServer) (st : MathRandState) (o : ServerOption)
    (h : newServer rand opts = .ok (s, st)) :
    (applyOption o s).1.isSome = true ∧ (applyOption o s).2 = s := by
  obtain ⟨s0, -, hinit, -, -⟩ := newServer_ok_shape rand opts s st h
  cases o <;> simp [applyOption, hinit]

/-- Witness for C2: the default-constructed server rejects a `BaseURL`
option after construction, unchanged. -/
theorem applyOption_after_new_witness :
    (applyOption (.baseURL "http://x/".toList)
        (serverOf (newServer mathRandInitialState []))).1.isSome = true ∧
      (applyOption (.baseURL "http://x/".toList)
        (serverOf (newServer mathRandInitialState []))).2 =
        serverOf (newServer mathRandInitialState []) :=
  applyOption_after_new mathRandInitialState []
    (serverOf (newServer mathRandInitialState []))
    (randOf (newServer mathRandInitialState []))
    (.baseURL "http://x/".toList) rfl

/-- Counterexample to C4: `New` with NO options at all — no access-token
configuration, no storage backend, no authorization provider, no
registered IdP — does NOT return an error: it succeeds.  (server.go
lines 43–64 install defaults with `WARN` logs instead of aborting.) -/
theorem new_no_options_succeeds :
    (newServer mathRandInitialState []).isOk = true := rfl

/-- C4 as amended: missing options are not a fatal configuration fault;
`New` substitutes defaults — a token encoder with a 16-byte `math/rand`
secret, lifetime 36000 and issuer "goauth2"; the in-memory
`transientMap`; the `emptyScopeSet`; the `anonymousIdP` under id
"anonymous" — and returns a fully-populated, initialized server with a
nil error. -/
theorem new_no_options_defaults (rand : MathRandState) :
    newServer rand [] = .ok
      ({ baseURL := [], listener := none,
         accessTokenEnc := some ⟨(mathRandRead 16 rand).1, 36000, "goauth2".toList⟩,
         store := some .defaultTransientMap,
         authz := some .emptyScopeSet,
         authn := [("anonymous".toList, AuthnVal.anonymousIdP)],
         clientMap := none, initialized := true },
       (mathRandRead 16 rand).2) := rfl

/-- C9: without an `AccessTokenConfig` option the signing secret is read
from `math/rand`'s default source, which every process starts in the
same fixed state; two servers each constructed first in their process
(both from `mathRandInitialState`), with any options that do not include
`AccessTokenConfig`, obtain identical encoder configurations — identical
16-byte secrets. -/
theorem new_default_secret_deterministic (opts1 opts2 : List ServerOption)
    (s1 s2 : GoServer) (r1 r2 : MathRandState)
    (h1 : ∀ o ∈ opts1, o.isAccessTokenConfig = false)
    (h2 : ∀ o ∈ opts2, o.isAccessTokenConfig = false)
    (hn1 : newServer mathRandInitialState opts1 = .ok (s1, r1))
    (hn2 : newServer mathRandInitialState opts2 = .ok (s2, r2)) :
    s1.accessTokenEnc = s2.accessTokenEnc ∧
      s1.accessTokenEnc =
        some ⟨(mathRandRead 16 mathRandInitialState).1, 36000, "goauth2".toList⟩ := by
  obtain ⟨s0a, hA1, -, -, hE1⟩ := newServer_ok_shape _ _ _ _ hn1
  obtain ⟨s0b, hA2, -, -, hE2⟩ := newServer_ok_shape _ _ _ _ hn2
  have hz1 : s0a.accessTokenEnc = none := by
    rw [applyOptions_enc opts1 zeroServer s0a h1 hA1]; rfl
  have hz2 : s0b.accessTokenEnc = none := by
    rw [applyOptions_enc opts2 zeroServer s0b h2 hA2]; rfl
  rw [hE1 hz1, hE2 hz2]
  exact ⟨rfl, rfl⟩

/-- Witness for C9: a first server built with no options and a first
server built with only a `Storage` option end up with the same encoder
secret. -/
theorem new_default_secret_deterministic_witness :
    (serverOf (newServer mathRandInitialState [])).accessTokenEnc =
      (serverOf (newServer mathRandInitialState [.storage 7])).accessTokenEnc ∧
    (serverOf (newServer mathRandInitialState [])).accessTokenEnc =
      some ⟨(mathRandRead 16 mathRandInitialState).1, 36000, "goauth2".toList⟩ :=
  new_default_secret_deterministic [] [.storage 7]
    (serverOf (newServer mathRandInitialState []))
    (serverOf (newServer mathRandInitialState [.storage 7]))
    (randOf (newServer mathRandInitialState []))
    (randOf (newServer mathRandInitialState [.storage 7]))
    (by decide) (by decide) rfl rfl

/-- C10: `New` leaves `listener` nil (only a successful `Start` assigns
it), and `Close` dereferences it unconditionally — so `Close` before a
successful `Start`, or after `Start` failed to bind, is a nil-pointer
panic rather than an error return. -/
theorem close_before_start_panics (rand : MathRandState)
    (opts : List ServerOption) (s : GoServer) (st : MathRandState)
    (h : newServer rand opts = .ok (s, st)) :
    s.listener = none ∧
      closeServer s = .error .nilPointerDeref ∧
      (startServer s false).1.listener = none ∧
      closeServer (startServer s false).1 = .error .nilPointerDeref := by
  obtain ⟨s0, hA, -, hl, -⟩ := newServer_ok_shape rand opts s st h
  have hnone : s.listener = none := by
    rw [hl, applyOptions_listener opts zeroServer s0 hA]; rfl
  refine ⟨hnone, ?_, ?_, ?_⟩ <;> simp [closeServer, startServer, hnone]

/-- Witness for C10: the default-constructed server panics in `Close`. -/
theorem close_before_start_panics_witness :
    (serverOf (newServer mathRandInitialState [])).listener = none ∧
      closeServer (serverOf (newServer mathRandInitialState [])) =
        .error .nilPointerDeref ∧
      (startServer (serverOf (newServer mathRandInitialState [])) false).1.listener
        = none ∧
      closeServer (startServer (serverOf (newServer mathRandInitialState [])) false).1
        = .error .nilPointerDeref :=
  close_before_start_panics mathRandInitialState []
    (serverOf (newServer mathRandInitialState []))
    (randOf (newServer mathRandInitialState [])) rfl

/-- Counterexample to C7: for a server with base URL `http://localhost/`
and registered IdP id `google-oic`, `handler()` registers the IdP route
at `/authorize/google-oic` with callback URL
`http://localhost/authorize/google-oic` — the path template is
`"authorize/%s"` (server.go line 113), so there is no
`/callback/<idp_id>` route and the callback URL is not
`<baseURL>/callback/<idp_id>`. -/
theorem serverRoutes_not_callback :
    serverRoutes (serverOf (newServer mathRandInitialState
        [.baseURL "http://localhost/".toList, .idp "google-oic".toList (.given 0)]))
      = [{ pattern := "/authorize/google-oic".toList,
           callbackURL := some "http://localhost/authorize/google-oic".toList },
         { pattern := "/authorize".toList, callbackURL := none }] ∧
    "/authorize/google-oic".toList ≠ "/callback/google-oic".toList ∧
    "http://localhost/authorize/google-oic".toList ≠
      "http://localhost/callback/google-oic".toList := by
  refine ⟨rfl, by decide, by decide⟩

/-- C7 as amended: for every registered IdP id the server registers the
IdP handler at path `/authorize/<idp_id>` and stores in it the callback
URL `baseURL.Parse("authorize/<idp_id>")` — i.e. `<baseURL>` with its
last path segment replaced by `authorize/<idp_id>` — which the handler
hands to the IdP's `AuthnRedirect`. -/
theorem serverRoutes_authorize_path (s : GoServer) (idpId : Str) (a : AuthnVal)
    (h : (idpId, a) ∈ s.authn) :
    ({ pattern := '/' :: ("authorize/".toList ++ idpId),
       callbackURL := some (urlResolveRel s.baseURL ("authorize/".toList ++ idpId)) }
      : RouteEntry) ∈ serverRoutes s := by
  unfold serverRoutes
  exact List.mem_append.mpr (Or.inl (List.mem_map.mpr ⟨(idpId, a), h, rfl⟩))

/-- Witness for amended C7, at the concrete server above. -/
theorem serverRoutes_authorize_path_witness :
    ({ pattern := '/' :: ("authorize/".toList ++ "google-oic".toList),
       callbackURL := some (urlResolveRel
         (serverOf (newServer mathRandInitialState
           [.baseURL "http://localhost/".toList,
            .idp "google-oic".toList (.given 0)])).baseURL
         ("authorize/".toList ++ "google-oic".toList)) } : RouteEntry) ∈
      serverRoutes (serverOf (newServer mathRandInitialState
        [.baseURL "http://localhost/".toList, .idp "google-oic".toList (.given 0)])) :=
  serverRoutes_authorize_path _ "google-oic".toList (.given 0) (by decide)

instance exceptDecEq {ε : Type} {α : Type} [DecidableEq ε] [DecidableEq α] :
    DecidableEq (Except ε α)
  | .error e, .error f =>
      if h : e = f then isTrue (congrArg Except.error h)
      else isFalse fun hh => h (Except.error.inj hh)
  | .ok x, .ok y =>
      if h : x = y then isTrue (congrArg Except.ok h)
      else isFalse fun hh => h (Except.ok.inj hh)
  | .error _, .ok _ => isFalse fun hh => Except.noConfusion hh
  | .ok _, .error _ => isFalse fun hh => Except.noConfusion hh

/-- C5: a callback request carrying a well-formed `state` parameter but
no `code` query parameter is a user denial, not an error: the result is
`(recovered ref, no user, nil error)` — regardless of anything about the
token endpoint (googleidp.go lines 99–102). -/
theorem authnCallback_userDenial (rawQuery : Str) (post : Except Str TokenResponse)
    (stateVals : List Str) (stateData : Values)
    (hstate : valuesLookup (queryLenient rawQuery) "state".toList = some stateVals)
    (hparse : parseQuery (stateVals.headD []) = some stateData)
    (hcode : valuesLookup (queryLenient rawQuery) "code".toList = none) :
    authnCallback rawQuery post = .ok (valuesGet stateData "ref".toList, none) := by
  unfold authnCallback
  simp only [hstate, hparse, hcode]

/-- Witness for C5 at query `state=ref%3Dabc` (no `code`): the `ref` is
recovered, no user, nil error. -/
theorem authnCallback_userDenial_witness :
    authnCallback "state=ref%3Dabc".toList (.error "e".toList)
      = .ok ("abc".toList, none) :=
  authnCallback_userDenial "state=ref%3Dabc".toList (.error "e".toList)
    ["ref=abc".toList] [("ref".toList, ["abc".toList])] rfl rfl rfl

/-- Whenever the callback query carries a parseable `state`, every normal
(non-error) return of `AuthnCallback` carries exactly
`stateData.Get("ref")` as the reference. -/
theorem authnCallback_ok_ref (rawQuery : Str) (post : Except Str TokenResponse)
    (stateVals : List Str) (stateData : Values) (r : Str) (u : Option OAuth2User)
    (hstate : valuesLookup (queryLenient rawQuery) "state".toList = some stateVals)
    (hparse : parseQuery (stateVals.headD []) = some stateData)
    (heq : authnCallback rawQuery post = .ok (r, u)) :
    r = valuesGet stateData "ref".toList := by
  unfold authnCallback at heq
  simp only [hstate, hparse] at heq
  cases hcode : valuesLookup (queryLenient rawQuery) "code".toList with
  | none =>
    simp only [hcode, Except.ok.injEq, Prod.mk.injEq] at heq
    exact heq.1.symm
  | some cv =>
    simp only [hcode] at heq
    split at heq
    · exact Except.noConfusion heq
    · split at heq
      · simp only [Except.ok.injEq, Prod.mk.injEq] at heq
        exact heq.1.symm
      · split at heq
        · simp only [Except.ok.injEq, Prod.mk.injEq] at heq
          exact heq.1.symm
        · split at heq
          · simp only [Except.ok.injEq, Prod.mk.injEq] at heq
            exact heq.1.symm
          · split at heq
            · simp only [Except.ok.injEq, Prod.mk.injEq] at heq
              exact heq.1.symm
            · split at heq
              · simp only [Except.ok.injEq, Prod.mk.injEq] at heq
                exact heq.1.symm
              · simp only [Except.ok.injEq, Prod.mk.injEq] at heq
                exact heq.1.symm

/-- Counterexample to C6: with a well-formed `state` and a `code`
present, a malformed token-endpoint response — here a plain 404 — does
NOT produce a non-nil error: `AuthnCallback` returns
`(ref, no user, nil error)` (googleidp.go lines 116–118 return
`stateData.Get("ref"), nil, nil`). -/
theorem authnCallback_malformed_nil_error :
    authnCallback "state=ref%3Dabc&code=xyz".toList (.ok ⟨404, "nope".toList⟩)
      = .ok ("abc".toList, none) := by decide

/-- C6 as amended: a non-nil error is returned ONLY for a transport
failure of the token-endpoint POST; every malformed response — non-200
status, a body that does not decode as the expected JSON, an `id_token`
that is not three dot-separated segments — yields `(ref, no user, nil
error)`, i.e. it is treated like a user denial. -/
theorem authnCallback_malformed (rawQuery : Str) (post : Except Str TokenResponse)
    (stateVals : List Str) (stateData : Values) (codeVals : List Str)
    (hstate : valuesLookup (queryLenient rawQuery) "state".toList = some stateVals)
    (hparse : parseQuery (stateVals.headD []) = some stateData)
    (hcode : valuesLookup (queryLenient rawQuery) "code".toList = some codeVals) :
    (∀ e, post = .error e → authnCallback rawQuery post = .error e)
    ∧ (∀ resp, post = .ok resp → resp.StatusCode ≠ 200 →
        authnCallback rawQuery post = .ok (valuesGet stateData "ref".toList, none))
    ∧ (∀ resp, post = .ok resp → unmarshalIDPResponse resp.Body = none →
        authnCallback rawQuery post = .ok (valuesGet stateData "ref".toList, none))
    ∧ (∀ resp d, post = .ok resp → unmarshalIDPResponse resp.Body = some d →
        (splitChar '.' d.IDToken).length ≠ 3 →
        authnCallback rawQuery post = .ok (valuesGet stateData "ref".toList, none)) := by
  refine ⟨?_, ?_, ?_, ?_⟩
  · intro e hpost
    subst hpost
    unfold authnCallback
    simp only [hstate, hparse, hcode]
  · intro resp hpost hst
    subst hpost
    unfold authnCallback
    simp only [hstate, hparse, hcode]
    rw [if_pos hst]
  · intro resp hpost hum
    subst hpost
    unfold authnCallback
    simp only [hstate, hparse, hcode]
    by_cases hst : resp.StatusCode ≠ 200
    · rw [if_pos hst]
    · rw [if_neg hst, hum]
  · intro resp d hpost hum hlen
    subst hpost
    unfold authnCallback
    simp only [hstate, hparse, hcode]
    by_cases hst : resp.StatusCode ≠ 200
    · rw [if_pos hst]
    · rw [if_neg hst]
      simp only [hum]
      rw [if_pos hlen]

/-- Witness for amended C6: a 500 response yields `(ref, none, nil)`. -/
theorem authnCallback_malformed_witness :
    authnCallback "state=ref%3Dabc&code=xyz".toList (.ok ⟨500, "bad".toList⟩)
      = .ok ("abc".toList, none) :=
  (authnCallback_malformed "state=ref%3Dabc&code=xyz".toList
    (.ok ⟨500, "bad".toList⟩) ["ref=abc".toList] [("ref".toList, ["abc".toList])]
    ["xyz".toList] rfl rfl rfl).2.1 ⟨500, "bad".toList⟩ rfl (by decide)

/-- Counterexample to C1: a 200 token-endpoint response whose `id_token`
is `e30.eyJzdWIiOiJhbGljZSJ9.!!!` — signature segment `!!!`, which is
not even base64url and so cannot pass verification against any key —
still yields the User `alice`.  `AuthnCallback` takes no signing keys as
input at all: no integrity verification happens, yet a User is
returned. -/
theorem authnCallback_user_from_unverified_token :
    authnCallback "state=ref%3Dabc&code=xyz".toList
      (.ok ⟨200, "\x7b\"access_token\":\"at\",\"token_type\":\"Bearer\",\"expires_in\":3600,\"id_token\":\"e30.eyJzdWIiOiJhbGljZSJ9.!!!\"\x7d".toList⟩)
      = .ok ("abc".toList, some ⟨"alice".toList, ["CDE_PLUS".toList]⟩) := by decide

/-- C1 as amended: `AuthnCallback` returns a User whenever the token
endpoint answers 200 with JSON whose `id_token` has three dot-segments
and a base64url-decodable JSON payload — for EVERY signature segment
`sigseg`, unconstrained below: the adapter performs no verification of
the token's integrity against the IdP's signing keys and builds the User
from the unverified payload's `sub`. -/
theorem authnCallback_trusts_payload (rawQuery : Str) (post : Except Str TokenResponse)
    (stateVals : List Str) (stateData : Values) (codeVals : List Str)
    (resp : TokenResponse) (d : GoogleIDPResponseData)
    (hseg pseg sigseg : Str) (raw : List Nat) (idt : GoogleIDToken)
    (hstate : valuesLookup (queryLenient rawQuery) "state".toList = some stateVals)
    (hparse : parseQuery (stateVals.headD []) = some stateData)
    (hcode : valuesLookup (queryLenient rawQuery) "code".toList = some codeVals)
    (hpost : post = .ok resp) (hst : resp.StatusCode = 200)
    (hum : unmarshalIDPResponse resp.Body = some d)
    (hsplit : splitChar '.' d.IDToken = [hseg, pseg, sigseg])
    (hb64 : base64RawURLDecode pseg = some raw)
    (hidt : unmarshalIDToken (bytesToStr raw) = some idt) :
    authnCallback rawQuery post =
      .ok (valuesGet stateData "ref".toList,
        some ⟨idt.Subject, ["CDE_PLUS".toList]⟩) := by
  subst hpost
  unfold authnCallback
  simp only [hstate, hparse, hcode]
  rw [if_neg (by simp [hst])]
  simp only [hum, hsplit]
  rw [if_neg (by simp),
    show ([hseg, pseg, sigseg] : List Str).getD 1 [] = pseg from rfl, hb64]
  simp only [hidt]

/-- Witness for amended C1, at the concrete unverifiable token above. -/
theorem authnCallback_trusts_payload_witness :
    authnCallback "state=ref%3Dabc&code=xyz".toList
      (.ok ⟨200, "\x7b\"access_token\":\"at\",\"token_type\":\"Bearer\",\"expires_in\":3600,\"id_token\":\"e30.eyJzdWIiOiJhbGljZSJ9.!!!\"\x7d".toList⟩)
      = .ok ("abc".toList, some ⟨"alice".toList, ["CDE_PLUS".toList]⟩) :=
  authnCallback_trusts_payload "state=ref%3Dabc&code=xyz".toList
    (.ok ⟨200, "\x7b\"access_token\":\"at\",\"token_type\":\"Bearer\",\"expires_in\":3600,\"id_token\":\"e30.eyJzdWIiOiJhbGljZSJ9.!!!\"\x7d".toList⟩)
    ["ref=abc".toList] [("ref".toList, ["abc".toList])] ["xyz".toList]
    ⟨200, "\x7b\"access_token\":\"at\",\"token_type\":\"Bearer\",\"expires_in\":3600,\"id_token\":\"e30.eyJzdWIiOiJhbGljZSJ9.!!!\"\x7d".toList⟩
    { AccessToken := "at".toList, TokenType := "Bearer".toList, ExpiresIn := 3600,
      IDToken := "e30.eyJzdWIiOiJhbGljZSJ9.!!!".toList }
    "e30".toList "eyJzdWIiOiJhbGljZSJ9".toList "!!!".toList
    [123, 34, 115, 117, 98, 34, 58, 34, 97, 108, 105, 99, 101, 34, 125]
    { Subject := "alice".toList }
    rfl rfl rfl rfl rfl (by decide) (by decide) (by decide) (by decide)

theorem byteStr_append {a b : Str} (ha : ByteStr a) (hb : ByteStr b) :
    ByteStr (a ++ b) := fun c hc =>
  (List.mem_append.mp hc).elim (ha c) (hb c)

theorem byteStr_cons {c : Char} {t : Str} (hc : c.toNat < 256) (ht : ByteStr t) :
    ByteStr (c :: t) := by
  intro d hd
  rcases List.mem_cons.mp hd with rfl | hd
  · exact hc
  · exact ht d hd

theorem byteStr_encChunk {p : Str × Str} (h1 : ByteStr p.1) (h2 : ByteStr p.2) :
    ByteStr (encChunk p) :=
  byteStr_append (escapeQuery_byteStr h1)
    (byteStr_cons (by decide) (escapeQuery_byteStr h2))

theorem byteStr_joinAmp {chunks : List Str} (h : ∀ x ∈ chunks, ByteStr x) :
    ByteStr (joinAmp chunks) := by
  induction chunks with
  | nil => intro c hc; cases hc
  | cons x xs ih =>
    cases xs with
    | nil => exact h x (List.mem_cons_self ..)
    | cons y ys =>
      show ByteStr (x ++ '&' :: joinAmp (y :: ys))
      exact byteStr_append (h x (List.mem_cons_self ..))
        (byteStr_cons (by decide)
          (ih fun z hz => h z (List.mem_cons_of_mem _ hz)))

/-- The `state` blob built by `AuthnRedirect`, laid out as the two
`key=value` chunks `Values.Encode` produces (keys sorted:
`redirect_uri` before `ref`). -/
theorem authnRedirectState_chunks (cb ref : Str) :
    authnRedirectState cb ref =
      joinAmp ([("redirect_uri".toList, cb), ("ref".toList, ref)].map encChunk) := rfl

theorem authnRedirectState_byteStr {cb ref : Str} (hcb : ByteStr cb)
    (href : ByteStr ref) : ByteStr (authnRedirectState cb ref) := by
  rw [authnRedirectState_chunks]
  apply byteStr_joinAmp
  intro x hx
  have h1 : ByteStr "redirect_uri".toList := by decide
  have h2 : ByteStr "ref".toList := by decide
  simp only [List.map_cons, List.map_nil] at hx
  rcases List.mem_cons.mp hx with rfl | hx
  · exact byteStr_encChunk h1 hcb
  rcases List.mem_cons.mp hx with rfl | hx
  · exact byteStr_encChunk h2 href
  · cases hx

/-- Parsing the `state` blob recovers the `ref` and `redirect_uri`
values `AuthnRedirect` put in. -/
theorem parseQuery_authnRedirectState (cb ref : Str) (hcb : ByteStr cb)
    (href : ByteStr ref) :
    parseQuery (authnRedirectState cb ref) =
      some [("redirect_uri".toList, [cb]), ("ref".toList, [ref])] := by
  unfold parseQuery
  rw [authnRedirectState_chunks,
    parseQueryRaw_encChunks _ (by
      intro p hp
      have h1 : ByteStr "redirect_uri".toList := by decide
      have h2 : ByteStr "ref".toList := by decide
      simp only [List.mem_cons, List.not_mem_nil, or_false] at hp
      rcases hp with rfl | rfl
      · exact ⟨h1, hcb⟩
      · exact ⟨h2, href⟩)]
  rfl

/-- C8: the redirect URL built by `AuthnRedirect` embeds `authzRef` in
its `state` query parameter, and a callback request carrying that same
`state` parameter recovers exactly the original `authzRef` as the
returned reference: (i) the redirect URL's query, parsed, holds the
encoded state blob under `state`; (ii) a callback with that `state` and
no `code` returns `(authzRef, none, nil)`; (iii) every normal return of
a callback with that `state` and any `code` carries `authzRef`. -/
theorem authnRedirect_ref_roundtrip (clientID cb ref : Str)
    (hcid : ByteStr clientID) (hcb : ByteStr cb) (href : ByteStr ref) :
    valuesGet (queryLenient (authnRedirectQuery clientID cb ref)) "state".toList
      = authnRedirectState cb ref
    ∧ (∀ post, authnCallback
        ("state=".toList ++ escapeQuery (authnRedirectState cb ref)) post
        = .ok (ref, none))
    ∧ (∀ (c : Str), ByteStr c → ∀ post r u,
        authnCallback ("state=".toList ++ escapeQuery (authnRedirectState cb ref)
          ++ '&' :: ("code=".toList ++ escapeQuery c)) post = .ok (r, u) →
        r = ref) := by
  have hspB : ByteStr (authnRedirectState cb ref) := authnRedirectState_byteStr hcb href
  have hsd := parseQuery_authnRedirectState cb ref hcb href
  have hkci : ByteStr "client_id".toList := by decide
  have hkru : ByteStr "redirect_uri".toList := by decide
  have hkrt : ByteStr "response_type".toList := by decide
  have hksc : ByteStr "scope".toList := by decide
  have hkst : ByteStr "state".toList := by decide
  have hkcd : ByteStr "code".toList := by decide
  have hvsc : ByteStr "openid email".toList := by decide
  refine ⟨?_, ?_, ?_⟩
  · have hq5 : authnRedirectQuery clientID cb ref =
        joinAmp (([("client_id".toList, clientID),
          ("redirect_uri".toList, cb),
          ("response_type".toList, "code".toList),
          ("scope".toList, "openid email".toList),
          ("state".toList, authnRedirectState cb ref)]).map encChunk) := rfl
    unfold queryLenient
    rw [hq5, parseQueryRaw_encChunks _ (by
      intro p hp
      simp only [List.mem_cons, List.not_mem_nil, or_false] at hp
      rcases hp with rfl | rfl | rfl | rfl | rfl
      · exact ⟨hkci, hcid⟩
      · exact ⟨hkru, hcb⟩
      · exact ⟨hkrt, hkcd⟩
      · exact ⟨hksc, hvsc⟩
      · exact ⟨hkst, hspB⟩)]
    rfl
  · intro post
    have hrq : "state=".toList ++ escapeQuery (authnRedirectState cb ref) =
        joinAmp ([("state".toList, authnRedirectState cb ref)].map encChunk) := rfl
    have hql : queryLenient ("state=".toList ++ escapeQuery (authnRedirectState cb ref))
        = [("state".toList, [authnRedirectState cb ref])] := by
      unfold queryLenient
      rw [hrq, parseQueryRaw_encChunks _ (by
        intro p hp
        simp only [List.mem_cons, List.not_mem_nil, or_false] at hp
        rcases hp with rfl
        exact ⟨hkst, hspB⟩)]
      rfl
    have := authnCallback_userDenial
      ("state=".toList ++ escapeQuery (authnRedirectState cb ref)) post
      [authnRedirectState cb ref]
      [("redirect_uri".toList, [cb]), ("ref".toList, [ref])]
      (by rw [hql]; rfl) (by simpa using hsd) (by rw [hql]; rfl)
    simpa using this
  · intro c hc post r u heq
    have hrq : "state=".toList ++ escapeQuery (authnRedirectState cb ref)
        ++ '&' :: ("code=".toList ++ escapeQuery c) =
        joinAmp ([("state".toList, authnRedirectState cb ref),
          ("code".toList, c)].map encChunk) := rfl
    have hql : queryLenient ("state=".toList ++ escapeQuery (authnRedirectState cb ref)
        ++ '&' :: ("code=".toList ++ escapeQuery c))
        = [("state".toList, [authnRedirectState cb ref]), ("code".toList, [c])] := by
      unfold queryLenient
      rw [hrq, parseQueryRaw_encChunks _ (by
        intro p hp
        simp only [List.mem_cons, List.not_mem_nil, or_false] at hp
        rcases hp with rfl | rfl
        · exact ⟨hkst, hspB⟩
        · exact ⟨hkcd, hc⟩)]
      rfl
    have hr := authnCallback_ok_ref
      ("state=".toList ++ escapeQuery (authnRedirectState cb ref)
        ++ '&' :: ("code=".toList ++ escapeQuery c)) post
      [authnRedirectState cb ref]
      [("redirect_uri".toList, [cb]), ("ref".toList, [ref])] r u
      (by rw [hql]; rfl) (by simpa using hsd) heq
    simpa using hr

/-- Witness for C8 at a concrete client id, callback URL and reference. -/
theorem authnRedirect_ref_roundtrip_witness :
    valuesGet (queryLenient (authnRedirectQuery "cid".toList
        "http://localhost/authorize/google-oic".toList "myref".toList)) "state".toList
      = authnRedirectState "http://localhost/authorize/google-oic".toList "myref".toList
    ∧ authnCallback ("state=".toList ++ escapeQuery (authnRedirectState
        "http://localhost/authorize/google-oic".toList "myref".toList))
        (.error "e".toList)
      = .ok ("myref".toList, none) :=
  ⟨(authnRedirect_ref_roundtrip "cid".toList
      "http://localhost/authorize/google-oic".toList "myref".toList
      (by decide) (by decide) (by decide)).1,
   (authnRedirect_ref_roundtrip "cid".toList
      "http://localhost/authorize/google-oic".toList "myref".toList
      (by decide) (by decide) (by decide)).2.1 (.error "e".toList)⟩
